import Mathlib

/-!
# pulsar-function-go/conf: configuration resolution

A shallow embedding of `pulsar-function-go/conf/conf.go`:

* `Conf`        the configuration record (all 32 fields, Go zero values as defaults);
* `fileExists`  the existence check (lines 83-93);
* `GetConf`     the resolver (lines 95-132), with the caller's record passed
                explicitly and an effect trace recording every external call;
* `init`        the flag registration with the default path (lines 134-151).

Go strings and byte slices are modelled by `String`, so `[]byte(confContent)` is
the identity.  The filesystem, the user database, the process environment and
the two decoders (`yaml.Unmarshal`, `json.Unmarshal`) are external to the
package and are taken as parameters; every general theorem holds for all of
them.  Concrete runs use `yamlUnmarshal` and `jsonUnmarshal` below, which model
the two library decoders on a documented fragment of their input languages.
-/

namespace conf

/-! ## Data model -/

/-- The constant `ConfigPath` (line 34). -/
def ConfigPath : String := "github.com/apache/pulsar/pulsar-function-go/conf/conf.yaml"

/-- A Go `float64`, kept as its IEEE-754 binary64 bit pattern; the zero value is `+0.0`. -/
structure Float64 where
  bits : Nat := 0
deriving DecidableEq, Repr

/-- The record `Conf` (lines 36-75).  `int`, `int32`, `int64` and `time.Duration`
are `Int`, `uint64` is `Nat`; each field defaults to its Go zero value, so
`({} : Conf)` is the value of `Conf{}`. -/
structure Conf where
  PulsarServiceURL : String := ""
  InstanceID : Int := 0
  FuncID : String := ""
  FuncVersion : String := ""
  MaxBufTuples : Int := 0
  Port : Int := 0
  ClusterName : String := ""
  KillAfterIdleMs : Int := 0
  Tenant : String := ""
  NameSpace : String := ""
  Name : String := ""
  LogTopic : String := ""
  ProcessingGuarantees : Int := 0
  SecretsMap : String := ""
  Runtime : Int := 0
  AutoACK : Bool := false
  Parallelism : Int := 0
  SubscriptionType : Int := 0
  TimeoutMs : Nat := 0
  SubscriptionName : String := ""
  CleanupSubscription : Bool := false
  SourceSpecTopic : String := ""
  SourceSchemaType : String := ""
  IsRegexPatternSubscription : Bool := false
  ReceiverQueueSize : Int := 0
  SinkSpecTopic : String := ""
  SinkSchemaType : String := ""
  Cpu : Float64 := {}
  Ram : Int := 0
  Disk : Int := 0
  MaxMessageRetries : Int := 0
  DeadLetterTopic : String := ""
deriving DecidableEq, Repr

/-- An error value returned by package `os`: its message and whether
`os.IsNotExist` holds of it. -/
structure OsError where
  Error : String
  notExist : Bool
deriving DecidableEq, Repr

/-- The filesystem as the package sees it: `Stat` is `os.Stat` with the
`FileInfo` dropped (`none` is a nil error), `ReadFile` is `ioutil.ReadFile`. -/
structure FileSystem where
  Stat : String → Option OsError
  ReadFile : String → Except OsError String

/-- The two library decoders.  Each takes the document and the record behind
the pointer and gives the record as the call leaves it together with the
returned error (`none` is nil).  A failing call may have written to the record. -/
structure Decoders where
  yaml : String → Conf → Conf × Option String
  json : String → Conf → Conf × Option String

/-- The package variables `help`, `confFilePath`, `confContent` (lines 77-81)
with the values they hold once `flag.Parse()` has returned. -/
structure Flags where
  help : Bool
  confFilePath : String
  confContent : String
deriving DecidableEq, Repr

/-- The external calls a run makes, in order. -/
inductive Event where
  | flagParse
  | flagUsage
  | stat (path : String)
  | readFile (path : String)
  | yamlUnmarshal (data : String)
  | jsonUnmarshal (data : String)
  | errorf (msg : String)
deriving DecidableEq, Repr

/-- What a call of `GetConf` leaves behind: `ret` is the record behind the
returned pointer (`none` for nil), `record` is the caller's record after the
call, `trace` the external calls made. -/
structure Outcome where
  ret : Option Conf
  record : Conf
  trace : List Event
deriving DecidableEq, Repr

/-! ## The code -/

/-- The predicate `os.IsNotExist`, false of a nil error. -/
def IsNotExist : Option OsError → Bool
  | none => false
  | some e => e.notExist

/-- The function `fileExists` (lines 83-93), with the filesystem calls it makes. -/
def fileExists (fs : FileSystem) (path : String) : Bool × List Event :=
  if path = "" then
    (false, [])
  else
    let err := fs.Stat path
    if err ≠ none ∨ IsNotExist err = true then
      (false, [Event.stat path])
    else
      (true, [Event.stat path])

/-- Lines 123-131 of `GetConf`: the content step and the final return, run on
the record `c` as the file step left it, after the calls in `t`. -/
def contentStep (dec : Decoders) (flags : Flags) (c : Conf) (t : List Event) : Outcome :=
  if flags.confContent ≠ "" then
    match dec.json flags.confContent c with
    | (c1, some err) =>
      ⟨none, c1, t ++ [Event.jsonUnmarshal flags.confContent,
        Event.errorf ("unmarshal config content error:" ++ err)]⟩
    | (c1, none) => ⟨some c1, c1, t ++ [Event.jsonUnmarshal flags.confContent]⟩
  else
    ⟨some c, c, t⟩

/-- The method `(c *Conf) GetConf()` (lines 95-132).  The condition of line 105
is read as `confContent == "" && (confFilePath == "" || !confFileExists)`: the
source line lacks its closing parenthesis. -/
def GetConf (fs : FileSystem) (dec : Decoders) (flags : Flags) (c : Conf) : Outcome :=
  let t0 := Event.flagParse :: (if flags.help then [Event.flagUsage] else [])
  let confFileExists := (fileExists fs flags.confFilePath).1
  let t1 := t0 ++ (fileExists fs flags.confFilePath).2
  if flags.confContent = "" ∧ (flags.confFilePath = "" ∨ confFileExists = false) then
    ⟨none, c, t1 ++ [Event.errorf "no yaml file or conf content provided"]⟩
  else if confFileExists = true then
    match fs.ReadFile flags.confFilePath with
    | .error err =>
      ⟨none, c, t1 ++ [Event.readFile flags.confFilePath,
        Event.errorf ("not found conf file, err:" ++ err.Error)]⟩
    | .ok yamlFile =>
      match dec.yaml yamlFile c with
      | (c1, some err) =>
        ⟨none, c1, t1 ++ [Event.readFile flags.confFilePath, Event.yamlUnmarshal yamlFile,
          Event.errorf ("unmarshal yaml file error:" ++ err)]⟩
      | (c1, none) =>
        contentStep dec flags c1
          (t1 ++ [Event.readFile flags.confFilePath, Event.yamlUnmarshal yamlFile])
  else
    contentStep dec flags c t1

/-- A `user.User`, of which only `HomeDir` is read. -/
structure User where
  HomeDir : String
deriving DecidableEq, Repr

/-- The process as `init` sees it: the result of `user.Current()` and the
environment variables. -/
structure Process where
  Current : Except String User
  environ : String → Option String

/-- The function `os.Getenv`: the empty string for a variable that is not set. -/
def Getenv (p : Process) (key : String) : String :=
  (p.environ key).getD ""

/-- A registered flag, as `flag.Flag` keeps it: name, usage and the default
value as text. -/
structure Flag where
  Name : String
  Usage : String
  DefValue : String
deriving DecidableEq, Repr

/-- The function `init` (lines 134-151): the flags it registers, in order. -/
def init (p : Process) : List Flag :=
  let homeDir : String :=
    match p.Current with
    | .ok usr => usr.HomeDir
    | .error _ => ""
  let homeDir : String :=
    if (match p.Current with | .ok _ => false | .error _ => true) = true ∨ homeDir = "" then
      Getenv p "HOME"
    else
      homeDir
  let defaultPath := homeDir ++ "/" ++ ConfigPath
  [ ⟨"help", "print help cmd", "false"⟩,
    ⟨"instance-conf-path", "config conf.yml filepath", defaultPath⟩,
    ⟨"instance-conf", "the string content of Conf struct", ""⟩ ]

/-- The function `flag.Lookup` on the registered flags. -/
def Lookup (flags : List Flag) (name : String) : Option Flag :=
  flags.find? (fun f => f.Name == name)

/-! ## The library decoders on a fragment

`yaml.Unmarshal` (gopkg.in/yaml.v2) and `json.Unmarshal` (encoding/json) are
modelled on documents that are one flat mapping from keys to scalars:

* JSON: one object whose keys and string values are double-quoted printable
  ASCII without escapes and whose other values are integer literals, `true`,
  `false` or `null`, with blanks between tokens;
* YAML: lines `key: value`, the key a letter followed by letters and digits,
  the value a double-quoted printable ASCII string without escapes, an integer
  literal in the 64-bit range, `true` or `false`.

A number stored to the `float64` field and a quoted string stored to the
duration field by YAML are not modelled.  On an input outside the fragment the
models report an error and leave the record alone, as the libraries do on
every input that is a syntax error; error texts are descriptive and are not
the libraries' wording. -/

/-- A scalar value of a document. -/
inductive Scalar where
  | quoted (s : String)
  | number (neg : Bool) (mag : Nat) (text : String)
  | bool (b : Bool)
  | null
deriving DecidableEq, Repr

/-- The members of a flat mapping, in document order. -/
abbrev Doc := List (String × Scalar)

/-- Whether a character is one of `0`..`9`. -/
def isDigit (c : Char) : Bool := decide (48 ≤ c.toNat ∧ c.toNat ≤ 57)

/-- Whether a character is an ASCII letter. -/
def isLetter (c : Char) : Bool :=
  decide ((65 ≤ c.toNat ∧ c.toNat ≤ 90) ∨ (97 ≤ c.toNat ∧ c.toNat ≤ 122))

/-- Whether a character may stand unescaped inside a quoted string of the fragment. -/
def isPlainChar (c : Char) : Bool :=
  decide (32 ≤ c.toNat ∧ c.toNat ≤ 126 ∧ c ≠ '"' ∧ c ≠ '\\')

/-- The value of a run of decimal digits. -/
def digitsValue (ds : List Char) : Nat :=
  ds.foldl (fun n d => 10 * n + (d.toNat - 48)) 0

/-- An integer literal from its sign and digits: the digits are not empty, all
decimal, and have no leading zero. -/
def finishNumber (neg : Bool) (ds : List Char) : Option Scalar :=
  match ds with
  | [] => none
  | d :: rest =>
    if ds.all isDigit = true ∧ (d ≠ '0' ∨ rest = []) then
      some (Scalar.number neg (digitsValue ds)
        (String.mk (if neg then '-' :: ds else ds)))
    else
      none

/-! ### JSON -/

/-- A JSON token of the fragment. -/
inductive Token where
  | lbrace
  | rbrace
  | colon
  | comma
  | scalar (v : Scalar)
deriving DecidableEq, Repr

/-- The state of the JSON lexer between two characters. -/
inductive LexMode where
  | idle
  | inString (acc : List Char)
  | inNumber (neg : Bool) (acc : List Char)
  | inWord (acc : List Char)
deriving DecidableEq, Repr

/-- The literal names of JSON. -/
def finishWord (w : List Char) : Option Scalar :=
  if w = "true".toList then some (Scalar.bool true)
  else if w = "false".toList then some (Scalar.bool false)
  else if w = "null".toList then some Scalar.null
  else none

/-- A character met between two lexemes. -/
def idleStep (c : Char) : Option (LexMode × List Token) :=
  if c = ' ' ∨ c = '\n' ∨ c = '\t' ∨ c = '\r' then some (LexMode.idle, [])
  else if c = '{' then some (LexMode.idle, [Token.lbrace])
  else if c = '}' then some (LexMode.idle, [Token.rbrace])
  else if c = ':' then some (LexMode.idle, [Token.colon])
  else if c = ',' then some (LexMode.idle, [Token.comma])
  else if c = '"' then some (LexMode.inString [], [])
  else if c = '-' then some (LexMode.inNumber true [], [])
  else if isDigit c = true then some (LexMode.inNumber false [c], [])
  else if isLetter c = true then some (LexMode.inWord [c], [])
  else none

/-- One character of JSON text: the next lexer state and the tokens completed. -/
def lexStep (m : LexMode) (c : Char) : Option (LexMode × List Token) :=
  match m with
  | LexMode.idle => idleStep c
  | LexMode.inString acc =>
    if c = '"' then some (LexMode.idle, [Token.scalar (Scalar.quoted (String.mk acc.reverse))])
    else if isPlainChar c = true then some (LexMode.inString (c :: acc), [])
    else none
  | LexMode.inNumber neg acc =>
    if isDigit c = true then some (LexMode.inNumber neg (c :: acc), [])
    else
      match finishNumber neg acc.reverse, idleStep c with
      | some v, some (m1, ts) => some (m1, Token.scalar v :: ts)
      | _, _ => none
  | LexMode.inWord acc =>
    if isLetter c = true then some (LexMode.inWord (c :: acc), [])
    else
      match finishWord acc.reverse, idleStep c with
      | some v, some (m1, ts) => some (m1, Token.scalar v :: ts)
      | _, _ => none

/-- The tokens of a JSON text, `none` when it is not made of the fragment's lexemes. -/
def lex : List Char → LexMode → List Token → Option (List Token)
  | [], LexMode.idle, out => some out
  | [], LexMode.inString _, _ => none
  | [], LexMode.inNumber neg acc, out =>
    (finishNumber neg acc.reverse).map (fun v => out ++ [Token.scalar v])
  | [], LexMode.inWord acc, out =>
    (finishWord acc.reverse).map (fun v => out ++ [Token.scalar v])
  | c :: cs, m, out =>
    match lexStep m c with
    | some (m1, ts) => lex cs m1 (out ++ ts)
    | none => none

/-- The state of the JSON object parser between two tokens. -/
inductive ParseState where
  | start
  | keyOrClose
  | key
  | colon (k : String)
  | value (k : String)
  | commaOrClose
  | done
deriving DecidableEq, Repr

/-- One token of a JSON object. -/
def parseStep (st : ParseState) (t : Token) (doc : Doc) : Option (ParseState × Doc) :=
  match st, t with
  | ParseState.start, Token.lbrace => some (ParseState.keyOrClose, doc)
  | ParseState.keyOrClose, Token.rbrace => some (ParseState.done, doc)
  | ParseState.keyOrClose, Token.scalar (Scalar.quoted k) => some (ParseState.colon k, doc)
  | ParseState.key, Token.scalar (Scalar.quoted k) => some (ParseState.colon k, doc)
  | ParseState.colon k, Token.colon => some (ParseState.value k, doc)
  | ParseState.value k, Token.scalar v => some (ParseState.commaOrClose, doc ++ [(k, v)])
  | ParseState.commaOrClose, Token.comma => some (ParseState.key, doc)
  | ParseState.commaOrClose, Token.rbrace => some (ParseState.done, doc)
  | _, _ => none

/-- The members of the one object a token list spells, `none` when it spells none. -/
def parseObject : List Token → ParseState → Doc → Option Doc
  | [], ParseState.done, doc => some doc
  | [], _, _ => none
  | t :: ts, st, doc =>
    match parseStep st t doc with
    | some (st1, doc1) => parseObject ts st1 doc1
    | none => none

/-- The members of a JSON text of the fragment. -/
def parseJSON (data : String) : Option Doc :=
  match lex data.toList LexMode.idle [] with
  | some ts => parseObject ts ParseState.start []
  | none => none

/-! ### The record's schema -/

/-- How a field of `Conf` is written: its Go kind and the assignment. -/
inductive Setter where
  | str (set : String → Conf → Conf)
  | int (bits : Nat) (set : Int → Conf → Conf)
  | uint (bits : Nat) (set : Nat → Conf → Conf)
  | bool (set : Bool → Conf → Conf)
  | float (set : Float64 → Conf → Conf)
  | duration (set : Int → Conf → Conf)

/-- The struct tags of `Conf` (lines 37-74): each field's key, which is the
same under `json` and under `yaml`, with its kind and assignment. -/
def schema : List (String × Setter) :=
  [
    ("pulsarServiceURL", Setter.str (fun v c => { c with PulsarServiceURL := v })),
    ("instanceID", Setter.int 64 (fun v c => { c with InstanceID := v })),
    ("funcID", Setter.str (fun v c => { c with FuncID := v })),
    ("funcVersion", Setter.str (fun v c => { c with FuncVersion := v })),
    ("maxBufTuples", Setter.int 64 (fun v c => { c with MaxBufTuples := v })),
    ("port", Setter.int 64 (fun v c => { c with Port := v })),
    ("clusterName", Setter.str (fun v c => { c with ClusterName := v })),
    ("killAfterIdleMs", Setter.duration (fun v c => { c with KillAfterIdleMs := v })),
    ("tenant", Setter.str (fun v c => { c with Tenant := v })),
    ("nameSpace", Setter.str (fun v c => { c with NameSpace := v })),
    ("name", Setter.str (fun v c => { c with Name := v })),
    ("logTopic", Setter.str (fun v c => { c with LogTopic := v })),
    ("processingGuarantees", Setter.int 32 (fun v c => { c with ProcessingGuarantees := v })),
    ("secretsMap", Setter.str (fun v c => { c with SecretsMap := v })),
    ("runtime", Setter.int 32 (fun v c => { c with Runtime := v })),
    ("autoAck", Setter.bool (fun v c => { c with AutoACK := v })),
    ("parallelism", Setter.int 32 (fun v c => { c with Parallelism := v })),
    ("subscriptionType", Setter.int 32 (fun v c => { c with SubscriptionType := v })),
    ("timeoutMs", Setter.uint 64 (fun v c => { c with TimeoutMs := v })),
    ("subscriptionName", Setter.str (fun v c => { c with SubscriptionName := v })),
    ("cleanupSubscription", Setter.bool (fun v c => { c with CleanupSubscription := v })),
    ("sourceSpecsTopic", Setter.str (fun v c => { c with SourceSpecTopic := v })),
    ("sourceSchemaType", Setter.str (fun v c => { c with SourceSchemaType := v })),
    ("isRegexPatternSubscription", Setter.bool (fun v c => { c with IsRegexPatternSubscription := v })),
    ("receiverQueueSize", Setter.int 32 (fun v c => { c with ReceiverQueueSize := v })),
    ("sinkSpecsTopic", Setter.str (fun v c => { c with SinkSpecTopic := v })),
    ("sinkSchemaType", Setter.str (fun v c => { c with SinkSchemaType := v })),
    ("cpu", Setter.float (fun v c => { c with Cpu := v })),
    ("ram", Setter.int 64 (fun v c => { c with Ram := v })),
    ("disk", Setter.int 64 (fun v c => { c with Disk := v })),
    ("maxMessageRetries", Setter.int 32 (fun v c => { c with MaxMessageRetries := v })),
    ("deadLetterTopic", Setter.str (fun v c => { c with DeadLetterTopic := v }))
  ]

/-- Whether an integer fits a signed Go integer of the given width. -/
def fitsInt (bits : Nat) (v : Int) : Bool :=
  decide (-(2 ^ (bits - 1) : Int) ≤ v ∧ v < (2 ^ (bits - 1) : Int))

/-- The integer an integer literal denotes. -/
def literalValue (neg : Bool) (mag : Nat) : Int :=
  if neg then -(mag : Int) else (mag : Int)

/-- The result of storing one value: the record and whether the store was
free of a type error; `none` when the store is not modelled. -/
abbrev Stored := Option (Conf × Bool)

/-- The store of one JSON value to one field, after `literalStore` of
encoding/json: `null` leaves a field of these kinds alone, a value of the wrong
kind or out of range is a type error that leaves the field alone. -/
def jsonStore (s : Setter) (v : Scalar) (c : Conf) : Stored :=
  match v, s with
  | Scalar.null, _ => some (c, true)
  | Scalar.quoted x, Setter.str set => some (set x c, true)
  | Scalar.quoted _, _ => some (c, false)
  | Scalar.bool b, Setter.bool set => some (set b c, true)
  | Scalar.bool _, _ => some (c, false)
  | Scalar.number neg mag _, Setter.int bits set =>
    if fitsInt bits (literalValue neg mag) = true then some (set (literalValue neg mag) c, true)
    else some (c, false)
  | Scalar.number neg mag _, Setter.duration set =>
    if fitsInt 64 (literalValue neg mag) = true then some (set (literalValue neg mag) c, true)
    else some (c, false)
  | Scalar.number neg mag _, Setter.uint bits set =>
    if neg = false ∧ mag < 2 ^ bits then some (set mag c, true) else some (c, false)
  | Scalar.number _ _ _, Setter.float _ => none
  | Scalar.number _ _ _, _ => some (c, false)

/-- The field a JSON key names: encoding/json matches keys to tags without
regard to case (the fragment's keys are ASCII, and no two tags of `Conf` differ
only in case). -/
def jsonField (key : String) : Option Setter :=
  (schema.find? (fun f => f.1.toList.map Char.toLower == key.toList.map Char.toLower)).map
    (fun f => f.2)

/-- The members of an object stored in document order: a key that names no
field is skipped, a type error is remembered and decoding goes on. -/
def jsonApply : Doc → Conf → Bool → Stored
  | [], c, ok => some (c, ok)
  | (k, v) :: rest, c, ok =>
    match jsonField k with
    | none => jsonApply rest c ok
    | some s =>
      match jsonStore s v c with
      | some (c1, ok1) => jsonApply rest c1 (ok && ok1)
      | none => none

/-- The decoder `json.Unmarshal(data, c)` on the fragment. -/
def jsonUnmarshal (data : String) (c : Conf) : Conf × Option String :=
  match parseJSON data with
  | none => (c, some "json: input is not an object of the fragment")
  | some doc =>
    match jsonApply doc c true with
    | none => (c, some "json: store not modelled")
    | some (c1, true) => (c1, none)
    | some (c1, false) => (c1, some "json: cannot unmarshal value into Go struct field")

/-! ### YAML -/

/-- The state of the YAML line reader between two characters. -/
inductive YamlMode where
  | lineStart
  | inKey (acc : List Char)
  | afterColon (k : String)
  | valueStart (k : String)
  | inQuoted (k : String) (acc : List Char)
  | inPlain (k : String) (acc : List Char)
  | afterValue
deriving DecidableEq, Repr

/-- The scalar a plain (unquoted) YAML value of the fragment resolves to:
`true`, `false`, or an integer literal that fits `int64` or `uint64`. -/
def resolvePlain (w : List Char) : Option Scalar :=
  if w = "true".toList then some (Scalar.bool true)
  else if w = "false".toList then some (Scalar.bool false)
  else
    match (match w with
      | '-' :: ds => finishNumber true ds
      | _ => finishNumber false w) with
    | some (Scalar.number neg mag text) =>
      if (neg = false ∧ mag < 2 ^ 64) ∨ (neg = true ∧ mag ≤ 2 ^ 63) then
        some (Scalar.number neg mag text)
      else none
    | _ => none

/-- One character of YAML text: the next reader state and the member completed. -/
def yamlStep (m : YamlMode) (c : Char) : Option (YamlMode × Doc) :=
  match m with
  | YamlMode.lineStart =>
    if c = '\n' then some (YamlMode.lineStart, [])
    else if isLetter c = true then some (YamlMode.inKey [c], [])
    else none
  | YamlMode.inKey acc =>
    if isLetter c = true ∨ isDigit c = true then some (YamlMode.inKey (c :: acc), [])
    else if c = ':' then some (YamlMode.afterColon (String.mk acc.reverse), [])
    else none
  | YamlMode.afterColon k =>
    if c = ' ' then some (YamlMode.valueStart k, []) else none
  | YamlMode.valueStart k =>
    if c = ' ' then some (YamlMode.valueStart k, [])
    else if c = '"' then some (YamlMode.inQuoted k [], [])
    else if isLetter c = true ∨ isDigit c = true ∨ c = '-' then some (YamlMode.inPlain k [c], [])
    else none
  | YamlMode.inQuoted k acc =>
    if c = '"' then some (YamlMode.afterValue, [(k, Scalar.quoted (String.mk acc.reverse))])
    else if isPlainChar c = true then some (YamlMode.inQuoted k (c :: acc), [])
    else none
  | YamlMode.inPlain k acc =>
    if isLetter c = true ∨ isDigit c = true then some (YamlMode.inPlain k (c :: acc), [])
    else if c = ' ' then (resolvePlain acc.reverse).map (fun v => (YamlMode.afterValue, [(k, v)]))
    else if c = '\n' then (resolvePlain acc.reverse).map (fun v => (YamlMode.lineStart, [(k, v)]))
    else none
  | YamlMode.afterValue =>
    if c = ' ' then some (YamlMode.afterValue, [])
    else if c = '\n' then some (YamlMode.lineStart, [])
    else none

/-- The members of a YAML text, `none` when it is not made of the fragment's lines. -/
def yamlRead : List Char → YamlMode → Doc → Option Doc
  | [], YamlMode.lineStart, doc => some doc
  | [], YamlMode.afterValue, doc => some doc
  | [], YamlMode.inPlain k acc, doc => (resolvePlain acc.reverse).map (fun v => doc ++ [(k, v)])
  | [], _, _ => none
  | c :: cs, m, doc =>
    match yamlStep m c with
    | some (m1, ms) => yamlRead cs m1 (doc ++ ms)
    | none => none

/-- The store of one YAML scalar to one field, after `(*decoder).scalar` of
yaml.v2: a string field takes the text of any scalar, an integer field an
integer in its range, a boolean field a boolean; anything else is a type error
that leaves the field alone. -/
def yamlStore (s : Setter) (v : Scalar) (c : Conf) : Stored :=
  match v, s with
  | Scalar.null, _ => none
  | Scalar.quoted x, Setter.str set => some (set x c, true)
  | Scalar.quoted _, Setter.duration _ => none
  | Scalar.quoted _, _ => some (c, false)
  | Scalar.bool b, Setter.bool set => some (set b c, true)
  | Scalar.bool b, Setter.str set => some (set (if b then "true" else "false") c, true)
  | Scalar.bool _, _ => some (c, false)
  | Scalar.number _ _ text, Setter.str set => some (set text c, true)
  | Scalar.number neg mag _, Setter.int bits set =>
    if fitsInt bits (literalValue neg mag) = true then some (set (literalValue neg mag) c, true)
    else some (c, false)
  | Scalar.number neg mag _, Setter.duration set =>
    if fitsInt 64 (literalValue neg mag) = true then some (set (literalValue neg mag) c, true)
    else some (c, false)
  | Scalar.number neg mag _, Setter.uint bits set =>
    if (neg = false ∨ mag = 0) ∧ mag < 2 ^ bits then some (set mag c, true) else some (c, false)
  | Scalar.number _ _ _, Setter.float _ => none
  | Scalar.number _ _ _, Setter.bool _ => some (c, false)

/-- The field a YAML key names: yaml.v2 matches keys to tags exactly. -/
def yamlField (key : String) : Option Setter :=
  (schema.find? (fun f => f.1 == key)).map (fun f => f.2)

/-- The members of a mapping stored in document order: a key that names no
field is skipped, a type error is remembered and decoding goes on. -/
def yamlApply : Doc → Conf → Bool → Stored
  | [], c, ok => some (c, ok)
  | (k, v) :: rest, c, ok =>
    match yamlField k with
    | none => yamlApply rest c ok
    | some s =>
      match yamlStore s v c with
      | some (c1, ok1) => yamlApply rest c1 (ok && ok1)
      | none => none

/-- The decoder `yaml.Unmarshal(data, c)` on the fragment. -/
def yamlUnmarshal (data : String) (c : Conf) : Conf × Option String :=
  match yamlRead data.toList YamlMode.lineStart [] with
  | none => (c, some "yaml: input is not a mapping of the fragment")
  | some doc =>
    match yamlApply doc c true with
    | none => (c, some "yaml: store not modelled")
    | some (c1, true) => (c1, none)
    | some (c1, false) => (c1, some "yaml: unmarshal errors: cannot unmarshal value into field")

/-- The two decoder models together. -/
def libDecoders : Decoders := ⟨yamlUnmarshal, jsonUnmarshal⟩

/-! ## Reading a trace -/

/-- How many times the file decoder ran. -/
def yamlRuns (t : List Event) : Nat :=
  t.countP (fun e => match e with | Event.yamlUnmarshal _ => true | _ => false)

/-- How many times the content decoder ran. -/
def jsonRuns (t : List Event) : Nat :=
  t.countP (fun e => match e with | Event.jsonUnmarshal _ => true | _ => false)

/-- How many times a file was read. -/
def fileReads (t : List Event) : Nat :=
  t.countP (fun e => match e with | Event.readFile _ => true | _ => false)

/-- How many filesystem calls were made. -/
def fsCalls (t : List Event) : Nat :=
  t.countP (fun e => match e with | Event.stat _ => true | Event.readFile _ => true | _ => false)

/-! ## A concrete machine -/

/-- The contents of the file `/etc/pulsar/conf.yaml` of `exampleFS`. -/
def exampleFile : String := "tenant: \"t0\"\nport: 8080\nparallelism: 1\n"

/-- A filesystem with four files: `conf.yaml` is a valid document,
`broken.yaml` ends inside a quoted string, `mistyped.yaml` gives the integer
field `port` a string, `locked.yaml` can be stat-ed but not read.  No other
path exists. -/
def exampleFS : FileSystem where
  Stat := fun p =>
    if p = "/etc/pulsar/conf.yaml" ∨ p = "/etc/pulsar/broken.yaml" ∨
      p = "/etc/pulsar/mistyped.yaml" ∨ p = "/etc/pulsar/locked.yaml"
    then none
    else some ⟨"stat " ++ p ++ ": no such file or directory", true⟩
  ReadFile := fun p =>
    if p = "/etc/pulsar/conf.yaml" then Except.ok exampleFile
    else if p = "/etc/pulsar/broken.yaml" then Except.ok "tenant: \"t0"
    else if p = "/etc/pulsar/mistyped.yaml" then Except.ok "tenant: \"t0\"\nport: \"x\"\n"
    else if p = "/etc/pulsar/locked.yaml" then
      Except.error ⟨"open " ++ p ++ ": permission denied", false⟩
    else Except.error ⟨"open " ++ p ++ ": no such file or directory", true⟩

/-- The inline content of the spec's scenario. -/
def exampleContent : String := "\x7b\"tenant\":\"t1\",\"parallelism\":2\x7d"

/-- An inline content that stops in the middle of an object. -/
def brokenContent : String := "\x7b\"tenant\":"

/-- Flags naming the valid file and no content. -/
def fileOnlyFlags : Flags := ⟨false, "/etc/pulsar/conf.yaml", ""⟩

/-- Flags naming the valid file together with the scenario's content. -/
def bothFlags : Flags := ⟨false, "/etc/pulsar/conf.yaml", exampleContent⟩

/-- Flags of the spec's scenario: the empty path and the scenario's content. -/
def contentOnlyFlags : Flags := ⟨false, "", exampleContent⟩

/-- Flags naming a path that does not exist together with the scenario's content. -/
def strayPathFlags : Flags := ⟨false, "/nonexistent/conf.yaml", exampleContent⟩

/-- Flags naming the file that cannot be read, with valid content. -/
def lockedFlags : Flags := ⟨false, "/etc/pulsar/locked.yaml", exampleContent⟩

/-- Flags naming the file that does not decode, with valid content. -/
def brokenFileFlags : Flags := ⟨false, "/etc/pulsar/broken.yaml", exampleContent⟩

/-- Flags naming the valid file together with content that does not decode. -/
def brokenContentFlags : Flags := ⟨false, "/etc/pulsar/conf.yaml", brokenContent⟩

/-- Flags naming the file with the mistyped field, and no content. -/
def mistypedFileFlags : Flags := ⟨false, "/etc/pulsar/mistyped.yaml", ""⟩

/-- An inline content that gives the integer field `parallelism` a string. -/
def mistypedContent : String := "\x7b\"tenant\":\"t1\",\"parallelism\":\"x\"\x7d"

/-- Flags with the empty path and the content with the mistyped field. -/
def mistypedContentFlags : Flags := ⟨false, "", mistypedContent⟩

/-- Flags naming the valid file together with the content with the mistyped field. -/
def overwriteFlags : Flags := ⟨false, "/etc/pulsar/conf.yaml", mistypedContent⟩

/-- A process whose user lookup gives the home directory `/home/alice`. -/
def aliceProcess : Process := ⟨Except.ok ⟨"/home/alice"⟩, fun _ => none⟩

/-- A process whose user lookup gives a home directory that ends in a slash. -/
def slashProcess : Process := ⟨Except.ok ⟨"/home/alice/"⟩, fun _ => none⟩

/-- A process whose user lookup gives an empty home directory while `HOME` is set. -/
def emptyHomeProcess : Process :=
  ⟨Except.ok ⟨""⟩, fun k => if k = "HOME" then some "/root" else none⟩

/-- A process whose user lookup fails while `HOME` is set. -/
def lookupFailsProcess : Process :=
  ⟨Except.error "user: Current requires cgo", fun k => if k = "HOME" then some "/root" else none⟩

/-- A process whose user lookup fails and whose `HOME` is not set. -/
def bareProcess : Process := ⟨Except.error "user: Current requires cgo", fun _ => none⟩

/-! ## Lemmas on the existence check -/

theorem fileExists_fst (fs : FileSystem) (path : String) :
    (fileExists fs path).1 = true ↔ path ≠ "" ∧ fs.Stat path = none := by
  unfold fileExists
  by_cases hp : path = ""
  · simp [hp]
  · cases hs : fs.Stat path <;> simp [hp, hs, IsNotExist]

theorem fileExists_snd (fs : FileSystem) (path : String) :
    (fileExists fs path).2 = if path = "" then [] else [Event.stat path] := by
  unfold fileExists
  by_cases hp : path = ""
  · simp [hp]
  · cases hs : fs.Stat path <;> simp [hp, hs, IsNotExist]

theorem fileExists_false (fs : FileSystem) (path : String)
    (h : path = "" ∨ fs.Stat path ≠ none) : (fileExists fs path).1 = false := by
  cases hb : (fileExists fs path).1
  · rfl
  · have := (fileExists_fst fs path).1 hb
    rcases h with h | h
    · exact absurd h this.1
    · exact absurd this.2 h

theorem fileExists_true (fs : FileSystem) (path : String)
    (hp : path ≠ "") (hs : fs.Stat path = none) : (fileExists fs path).1 = true :=
  (fileExists_fst fs path).2 ⟨hp, hs⟩

/-! ## The decoder models on the example documents -/

theorem jsonUnmarshal_exampleContent (r : Conf) :
    jsonUnmarshal exampleContent r = ({ r with Tenant := "t1", Parallelism := 2 }, none) := rfl

theorem yamlUnmarshal_exampleFile (r : Conf) :
    yamlUnmarshal exampleFile r
      = ({ r with Tenant := "t0", Port := 8080, Parallelism := 1 }, none) := rfl

theorem jsonUnmarshal_brokenContent (r : Conf) :
    (jsonUnmarshal brokenContent r).2 ≠ none := by
  intro h
  exact Option.noConfusion h

/-- A content decoder that fails late has already written: with the valid file
and the content with the mistyped field the call returns nil, and the record
holds the content's tenant over the file's, next to the file's port and
parallelism. -/
theorem GetConf_late_content_failure_overwrites :
    (GetConf exampleFS libDecoders overwriteFlags {}).ret = none ∧
    (GetConf exampleFS libDecoders overwriteFlags {}).record
      = { Tenant := "t1", Port := 8080, Parallelism := 1 } := by
  decide

/-! ## The claims -/

/-- C10: `fileExists` returns false for the empty path without any filesystem
call; for a non-empty path it makes one `os.Stat` call on that path and returns
true exactly when the call succeeds, so it is true only for a non-empty path
that can be stat-ed. -/
theorem fileExists_spec (fs : FileSystem) (path : String) :
    fileExists fs "" = (false, []) ∧
    fsCalls (fileExists fs "").2 = 0 ∧
    ((fileExists fs path).1 = true ↔ path ≠ "" ∧ fs.Stat path = none) ∧
    (fileExists fs path).2 = (if path = "" then [] else [Event.stat path]) := by
  refine ⟨by simp [fileExists], by simp [fileExists, fsCalls], fileExists_fst fs path,
    fileExists_snd fs path⟩

/-- C1: with empty content and a path that is empty or cannot be stat-ed,
`GetConf` returns nil, the record is the caller's, and neither the file decoder
nor the content decoder runs (nor is any file read). -/
theorem GetConf_missing_source (fs : FileSystem) (dec : Decoders) (flags : Flags) (c : Conf)
    (hc : flags.confContent = "")
    (hp : flags.confFilePath = "" ∨ fs.Stat flags.confFilePath ≠ none) :
    (GetConf fs dec flags c).ret = none ∧
    yamlRuns (GetConf fs dec flags c).trace = 0 ∧
    jsonRuns (GetConf fs dec flags c).trace = 0 ∧
    fileReads (GetConf fs dec flags c).trace = 0 := by
  have hf := fileExists_false fs flags.confFilePath hp
  have hs := fileExists_snd fs flags.confFilePath
  simp only [GetConf, hc, hf, hs]
  by_cases hq : flags.confFilePath = "" <;> cases hh : flags.help <;>
    simp [hq, yamlRuns, jsonRuns, fileReads]

/-- C1 at the two inputs the claim names: the empty path, and a non-empty path
that names no file, each with empty content. -/
theorem GetConf_missing_source_witness :
    ((GetConf exampleFS libDecoders ⟨false, "", ""⟩ {}).ret = none ∧
      yamlRuns (GetConf exampleFS libDecoders ⟨false, "", ""⟩ {}).trace = 0 ∧
      jsonRuns (GetConf exampleFS libDecoders ⟨false, "", ""⟩ {}).trace = 0 ∧
      fileReads (GetConf exampleFS libDecoders ⟨false, "", ""⟩ {}).trace = 0) ∧
    ((GetConf exampleFS libDecoders ⟨false, "/nonexistent/conf.yaml", ""⟩ {}).ret = none ∧
      yamlRuns (GetConf exampleFS libDecoders ⟨false, "/nonexistent/conf.yaml", ""⟩ {}).trace = 0 ∧
      jsonRuns (GetConf exampleFS libDecoders ⟨false, "/nonexistent/conf.yaml", ""⟩ {}).trace = 0 ∧
      fileReads (GetConf exampleFS libDecoders ⟨false, "/nonexistent/conf.yaml", ""⟩ {}).trace = 0) :=
  ⟨GetConf_missing_source exampleFS libDecoders ⟨false, "", ""⟩ {} rfl (Or.inl rfl),
   GetConf_missing_source exampleFS libDecoders ⟨false, "/nonexistent/conf.yaml", ""⟩ {} rfl
    (Or.inr (by decide))⟩

/-- C2: when the path names a file that exists, is read and decodes, and the
content is non-empty and decodes, `GetConf` returns the record obtained by the
file decoder first and the content decoder second, each run once; so every
field the content sets (to `v`, whatever record it is applied to) has the
content's value `v` in the returned record, whatever the file had put there. -/
theorem GetConf_file_then_content (fs : FileSystem) (dec : Decoders) (flags : Flags) (c : Conf)
    (yamlFile : String)
    (hpath : flags.confFilePath ≠ "")
    (hstat : fs.Stat flags.confFilePath = none)
    (hread : fs.ReadFile flags.confFilePath = Except.ok yamlFile)
    (hyaml : (dec.yaml yamlFile c).2 = none)
    (hcont : flags.confContent ≠ "")
    (hjson : (dec.json flags.confContent (dec.yaml yamlFile c).1).2 = none) :
    (GetConf fs dec flags c).ret
      = some (dec.json flags.confContent (dec.yaml yamlFile c).1).1 ∧
    (GetConf fs dec flags c).record = (dec.json flags.confContent (dec.yaml yamlFile c).1).1 ∧
    yamlRuns (GetConf fs dec flags c).trace = 1 ∧
    jsonRuns (GetConf fs dec flags c).trace = 1 ∧
    (∀ (α : Type) (F : Conf → α) (v : α),
      (∀ r : Conf, F (dec.json flags.confContent r).1 = v) →
      (GetConf fs dec flags c).ret.map F = some v) := by
  have hf := fileExists_true fs flags.confFilePath hpath hstat
  have hs := fileExists_snd fs flags.confFilePath
  rcases hy : dec.yaml yamlFile c with ⟨c1, e1⟩
  rcases hj : dec.json flags.confContent c1 with ⟨c2, e2⟩
  simp only [hy] at hyaml hjson
  simp only [hj] at hjson
  subst hyaml hjson
  have hF : ∀ (α : Type) (F : Conf → α) (v : α),
      (∀ r : Conf, F (dec.json flags.confContent r).1 = v) → F c2 = v := by
    intro α F v h
    have := h c1
    rw [hj] at this
    exact this
  simp only [GetConf, contentStep, hf, hs, hread, hy, hj, hcont, hpath]
  cases hh : flags.help <;> simp [yamlRuns, jsonRuns, hcont] <;> exact hF

/-- C2 on the example machine: the file sets the tenant to `t0` and the
content sets it to `t1`; the returned record has the content's tenant and the
file's port. -/
theorem GetConf_file_then_content_witness :
    (yamlUnmarshal exampleFile {}).1.Tenant = "t0" ∧
    (GetConf exampleFS libDecoders bothFlags {}).ret
      = some (jsonUnmarshal exampleContent (yamlUnmarshal exampleFile {}).1).1 ∧
    (GetConf exampleFS libDecoders bothFlags {}).ret
      = some { Tenant := "t1", Port := 8080, Parallelism := 2 } ∧
    (GetConf exampleFS libDecoders bothFlags {}).ret.map Conf.Tenant = some "t1" :=
  have h := GetConf_file_then_content exampleFS libDecoders bothFlags {} exampleFile
    (by decide) (by decide) rfl (by decide) (by decide) (by decide)
  ⟨by decide, h.1, by decide,
    h.2.2.2.2 String Conf.Tenant "t1" (fun r => by
      show (jsonUnmarshal exampleContent r).1.Tenant = "t1"
      rw [jsonUnmarshal_exampleContent])⟩

/-- C3: when the path names a file that exists, is read and decodes, and the
content is empty, `GetConf` returns the file decoder applied once to the input
record and the content decoder never runs; a field the file decoder leaves
alone keeps the value it had in the input record, which is the zero value when
the caller passes a zero record. -/
theorem GetConf_file_only (fs : FileSystem) (dec : Decoders) (flags : Flags) (c : Conf)
    (yamlFile : String)
    (hpath : flags.confFilePath ≠ "")
    (hstat : fs.Stat flags.confFilePath = none)
    (hread : fs.ReadFile flags.confFilePath = Except.ok yamlFile)
    (hyaml : (dec.yaml yamlFile c).2 = none)
    (hcont : flags.confContent = "") :
    (GetConf fs dec flags c).ret = some (dec.yaml yamlFile c).1 ∧
    (GetConf fs dec flags c).record = (dec.yaml yamlFile c).1 ∧
    yamlRuns (GetConf fs dec flags c).trace = 1 ∧
    jsonRuns (GetConf fs dec flags c).trace = 0 ∧
    (∀ (α : Type) (F : Conf → α),
      (∀ r : Conf, F (dec.yaml yamlFile r).1 = F r) →
      (GetConf fs dec flags c).ret.map F = some (F c)) := by
  have hf := fileExists_true fs flags.confFilePath hpath hstat
  have hs := fileExists_snd fs flags.confFilePath
  rcases hy : dec.yaml yamlFile c with ⟨c1, e1⟩
  simp only [hy] at hyaml
  subst hyaml
  have hF : ∀ (α : Type) (F : Conf → α),
      (∀ r : Conf, F (dec.yaml yamlFile r).1 = F r) → F c1 = F c := by
    intro α F h
    have := h c
    rw [hy] at this
    exact this
  simp only [GetConf, contentStep, hf, hs, hread, hy, hcont, hpath]
  cases hh : flags.help <;> simp [yamlRuns, jsonRuns] <;> exact hF

/-- C3 on the example machine with a zero record: the result is the file's
three fields, and the name space, which the file does not mention, is still
empty. -/
theorem GetConf_file_only_witness :
    (GetConf exampleFS libDecoders fileOnlyFlags {}).ret = some (yamlUnmarshal exampleFile {}).1 ∧
    (GetConf exampleFS libDecoders fileOnlyFlags {}).ret
      = some { Tenant := "t0", Port := 8080, Parallelism := 1 } ∧
    jsonRuns (GetConf exampleFS libDecoders fileOnlyFlags {}).trace = 0 ∧
    (GetConf exampleFS libDecoders fileOnlyFlags {}).ret.map Conf.NameSpace = some "" :=
  have h := GetConf_file_only exampleFS libDecoders fileOnlyFlags {} exampleFile
    (by decide) (by decide) rfl (by decide) (by decide)
  ⟨h.1, by decide, h.2.2.2.1,
    h.2.2.2.2 String Conf.NameSpace (fun r => by
      show (yamlUnmarshal exampleFile r).1.NameSpace = r.NameSpace
      rw [yamlUnmarshal_exampleFile])⟩

/-- C4: when the path is empty or cannot be stat-ed and the content is
non-empty and decodes, `GetConf` returns the content decoder applied once to
the input record, reads no file and never runs the file decoder. -/
theorem GetConf_content_only (fs : FileSystem) (dec : Decoders) (flags : Flags) (c : Conf)
    (hp : flags.confFilePath = "" ∨ fs.Stat flags.confFilePath ≠ none)
    (hcont : flags.confContent ≠ "")
    (hjson : (dec.json flags.confContent c).2 = none) :
    (GetConf fs dec flags c).ret = some (dec.json flags.confContent c).1 ∧
    (GetConf fs dec flags c).record = (dec.json flags.confContent c).1 ∧
    fileReads (GetConf fs dec flags c).trace = 0 ∧
    yamlRuns (GetConf fs dec flags c).trace = 0 ∧
    jsonRuns (GetConf fs dec flags c).trace = 1 := by
  have hf := fileExists_false fs flags.confFilePath hp
  have hs := fileExists_snd fs flags.confFilePath
  rcases hj : dec.json flags.confContent c with ⟨c1, e1⟩
  simp only [hj] at hjson
  subst hjson
  simp only [GetConf, contentStep, hf, hs, hj, hcont]
  by_cases hq : flags.confFilePath = "" <;> cases hh : flags.help <;>
    simp [hq, hcont, yamlRuns, jsonRuns, fileReads]

/-- C4 at the spec's scenario: the empty path and the content
`{"tenant":"t1","parallelism":2}` give success with tenant `t1` and
parallelism 2, every other field at its zero value. -/
theorem GetConf_content_only_witness :
    (GetConf exampleFS libDecoders contentOnlyFlags {}).ret
      = some (jsonUnmarshal exampleContent {}).1 ∧
    (GetConf exampleFS libDecoders contentOnlyFlags {}).ret
      = some { Tenant := "t1", Parallelism := 2 } ∧
    (GetConf exampleFS libDecoders contentOnlyFlags {}).ret.map Conf.Tenant = some "t1" ∧
    (GetConf exampleFS libDecoders contentOnlyFlags {}).ret.map Conf.Parallelism = some 2 ∧
    fileReads (GetConf exampleFS libDecoders contentOnlyFlags {}).trace = 0 :=
  have h := GetConf_content_only exampleFS libDecoders contentOnlyFlags {}
    (Or.inl rfl) (by decide) (by decide)
  ⟨h.1, by decide, by decide, by decide, h.2.2.1⟩

/-- C5: when the file at the path exists but reading it fails, or its contents
fail to decode, `GetConf` returns nil and the content decoder never runs,
whatever the content string is. -/
theorem GetConf_file_failure (fs : FileSystem) (dec : Decoders) (flags : Flags) (c : Conf)
    (hpath : flags.confFilePath ≠ "")
    (hstat : fs.Stat flags.confFilePath = none)
    (hfail : (∃ err, fs.ReadFile flags.confFilePath = Except.error err) ∨
      (∃ yamlFile, fs.ReadFile flags.confFilePath = Except.ok yamlFile ∧
        (dec.yaml yamlFile c).2 ≠ none)) :
    (GetConf fs dec flags c).ret = none ∧
    jsonRuns (GetConf fs dec flags c).trace = 0 := by
  have hf := fileExists_true fs flags.confFilePath hpath hstat
  have hs := fileExists_snd fs flags.confFilePath
  rcases hfail with ⟨err, hread⟩ | ⟨yamlFile, hread, hyaml⟩
  · simp only [GetConf, hf, hs, hread, hpath]
    cases hh : flags.help <;> simp [jsonRuns]
  · rcases hy : dec.yaml yamlFile c with ⟨c1, e1⟩
    simp only [hy] at hyaml
    cases e1 with
    | none => exact absurd rfl hyaml
    | some e =>
      simp only [GetConf, hf, hs, hread, hy, hpath]
      cases hh : flags.help <;> simp [jsonRuns]

/-- C5 on the example machine, with valid non-empty content in both runs: a
file that cannot be read, and a file that does not decode. -/
theorem GetConf_file_failure_witness :
    ((GetConf exampleFS libDecoders lockedFlags {}).ret = none ∧
      jsonRuns (GetConf exampleFS libDecoders lockedFlags {}).trace = 0) ∧
    ((GetConf exampleFS libDecoders brokenFileFlags {}).ret = none ∧
      jsonRuns (GetConf exampleFS libDecoders brokenFileFlags {}).trace = 0) ∧
    (jsonUnmarshal lockedFlags.confContent {}).2 = none :=
  ⟨GetConf_file_failure exampleFS libDecoders lockedFlags {} (by decide) (by decide)
      (Or.inl ⟨_, rfl⟩),
   GetConf_file_failure exampleFS libDecoders brokenFileFlags {} (by decide) (by decide)
      (Or.inr ⟨_, rfl, by decide⟩),
   by decide⟩

/-- C6: when the content is non-empty and the content decoder fails on it,
`GetConf` returns nil, for every path and filesystem: whether no file exists,
the file step itself fails, or the file was decoded successfully before. -/
theorem GetConf_content_failure (fs : FileSystem) (dec : Decoders) (flags : Flags) (c : Conf)
    (hcont : flags.confContent ≠ "")
    (hjson : ∀ r : Conf, (dec.json flags.confContent r).2 ≠ none) :
    (GetConf fs dec flags c).ret = none := by
  have hstep : ∀ (r : Conf) (t : List Event), (contentStep dec flags r t).ret = none := by
    intro r t
    have := hjson r
    rcases hj : dec.json flags.confContent r with ⟨c1, e1⟩
    simp only [hj] at this
    cases e1 with
    | none => exact absurd rfl this
    | some e => simp [contentStep, hcont, hj]
  unfold GetConf
  simp only [hcont, false_and, if_false]
  split
  · split
    · rfl
    · split
      · rfl
      · exact hstep _ _
  · exact hstep _ _

/-- C6 on the example machine: the file exists and is decoded successfully,
the content stops in the middle of an object, and the call returns nil. -/
theorem GetConf_content_failure_witness :
    (yamlUnmarshal exampleFile {}).2 = none ∧
    yamlRuns (GetConf exampleFS libDecoders brokenContentFlags {}).trace = 1 ∧
    (GetConf exampleFS libDecoders brokenContentFlags {}).ret = none :=
  ⟨by decide, by decide,
    GetConf_content_failure exampleFS libDecoders brokenContentFlags {} (by decide)
      (fun r => jsonUnmarshal_brokenContent r)⟩

/-- C7: the default registered for the flag `instance-conf-path` is
`h ++ "/" ++ ConfigPath`, where `h` is the user's home directory when the
lookup succeeds with a non-empty one and the value of `HOME` otherwise, the
empty string when `HOME` is not set.  Nothing is normalised: a home directory
ending in a slash gives two slashes, and no home at all gives `/` followed by
`ConfigPath`. -/
theorem init_default_path (p : Process) :
    (Lookup (init p) "instance-conf-path").map Flag.DefValue
      = some ((match p.Current with
          | Except.ok usr => if usr.HomeDir = "" then Getenv p "HOME" else usr.HomeDir
          | Except.error _ => Getenv p "HOME") ++ "/" ++ ConfigPath) ∧
    (Getenv p "HOME" = match p.environ "HOME" with | some v => v | none => "") ∧
    (Lookup (init aliceProcess) "instance-conf-path").map Flag.DefValue
      = some "/home/alice/github.com/apache/pulsar/pulsar-function-go/conf/conf.yaml" ∧
    (Lookup (init slashProcess) "instance-conf-path").map Flag.DefValue
      = some "/home/alice//github.com/apache/pulsar/pulsar-function-go/conf/conf.yaml" ∧
    (Lookup (init emptyHomeProcess) "instance-conf-path").map Flag.DefValue
      = some "/root/github.com/apache/pulsar/pulsar-function-go/conf/conf.yaml" ∧
    (Lookup (init lookupFailsProcess) "instance-conf-path").map Flag.DefValue
      = some "/root/github.com/apache/pulsar/pulsar-function-go/conf/conf.yaml" ∧
    (Lookup (init bareProcess) "instance-conf-path").map Flag.DefValue
      = some "/github.com/apache/pulsar/pulsar-function-go/conf/conf.yaml" := by
  refine ⟨?_, ?_, by decide, by decide, by decide, by decide, by decide⟩
  · have h1 : ("help" == "instance-conf-path") = false := by decide
    have h2 : ("instance-conf-path" == "instance-conf-path") = true := by decide
    rcases hc : p.Current with e | usr
    · simp [init, Lookup, List.find?, h1, h2, hc]
    · by_cases hh : usr.HomeDir = "" <;> simp [init, Lookup, List.find?, h1, h2, hc, hh]
  · unfold Getenv
    cases p.environ "HOME" <;> rfl

/-- C8 as stated fails: with the non-empty path `/nonexistent/conf.yaml`, which
names no file, and valid content, `GetConf` returns a record although the file
decoder never ran. -/
theorem GetConf_stray_path_skips_file_decoder :
    strayPathFlags.confFilePath ≠ "" ∧
    (GetConf exampleFS libDecoders strayPathFlags {}).ret
      = some { Tenant := "t1", Parallelism := 2 } ∧
    yamlRuns (GetConf exampleFS libDecoders strayPathFlags {}).trace = 0 ∧
    ¬ ((GetConf exampleFS libDecoders strayPathFlags {}).ret ≠ none →
        (strayPathFlags.confFilePath ≠ "" →
          yamlRuns (GetConf exampleFS libDecoders strayPathFlags {}).trace = 1) ∧
        (strayPathFlags.confContent ≠ "" →
          jsonRuns (GetConf exampleFS libDecoders strayPathFlags {}).trace = 1)) := by
  decide

/-- C8, amended: when `GetConf` returns a record, the file decoder ran exactly
once if the path is non-empty and can be stat-ed and not at all otherwise, and
the content decoder ran exactly once if the content is non-empty and not at
all otherwise. -/
theorem GetConf_success_decoder_runs (fs : FileSystem) (dec : Decoders) (flags : Flags)
    (c r : Conf) (h : (GetConf fs dec flags c).ret = some r) :
    yamlRuns (GetConf fs dec flags c).trace
      = (if flags.confFilePath ≠ "" ∧ fs.Stat flags.confFilePath = none then 1 else 0) ∧
    jsonRuns (GetConf fs dec flags c).trace
      = (if flags.confContent ≠ "" then 1 else 0) := by
  have hs := fileExists_snd fs flags.confFilePath
  have hstep : ∀ (x : Conf) (t : List Event), (contentStep dec flags x t).ret = some r →
      yamlRuns (contentStep dec flags x t).trace = yamlRuns t ∧
      jsonRuns (contentStep dec flags x t).trace
        = jsonRuns t + (if flags.confContent ≠ "" then 1 else 0) := by
    intro x t
    unfold contentStep
    by_cases hc : flags.confContent = ""
    · simp [hc]
    · rcases hj : dec.json flags.confContent x with ⟨c1, e1⟩
      cases e1 <;> simp [hc, yamlRuns, jsonRuns]
  by_cases hex : flags.confFilePath ≠ "" ∧ fs.Stat flags.confFilePath = none
  · have hf := fileExists_true fs flags.confFilePath hex.1 hex.2
    have hq : flags.confFilePath ≠ "" := hex.1
    unfold GetConf at h ⊢
    simp only [hf, hs, hq, if_true, if_false, hex, and_self] at h ⊢
    cases hr : fs.ReadFile flags.confFilePath with
    | error err => simp [hr] at h
    | ok yamlFile =>
      rcases hy : dec.yaml yamlFile c with ⟨c1, e1⟩
      cases e1 with
      | some e => simp [hr, hy] at h
      | none =>
        simp only [hr, hy, Bool.true_eq_false, or_false, and_false, if_false] at h ⊢
        have := hstep _ _ h
        rw [this.1, this.2]
        cases hh : flags.help <;> simp [hq, hex, yamlRuns, jsonRuns]
  · have hp : flags.confFilePath = "" ∨ fs.Stat flags.confFilePath ≠ none := by
      by_cases hq : flags.confFilePath = ""
      · exact Or.inl hq
      · exact Or.inr (fun hn => hex ⟨hq, hn⟩)
    have hf := fileExists_false fs flags.confFilePath hp
    unfold GetConf at h ⊢
    simp only [hf, hs, hex, if_false, or_true, and_true] at h ⊢
    by_cases hc : flags.confContent = ""
    · simp [hc] at h
    · simp only [hc, if_false, Bool.false_eq_true] at h ⊢
      have := hstep _ _ h
      rw [this.1, this.2]
      by_cases hq : flags.confFilePath = "" <;> cases hh : flags.help <;>
        simp [hq, hc, yamlRuns, jsonRuns]

/-- C8, amended, on the example machine: with a path that names no file only
the content decoder runs, with the valid file and content both run once. -/
theorem GetConf_success_decoder_runs_witness :
    ((GetConf exampleFS libDecoders strayPathFlags {}).ret
        = some { Tenant := "t1", Parallelism := 2 } ∧
      yamlRuns (GetConf exampleFS libDecoders strayPathFlags {}).trace
        = (if strayPathFlags.confFilePath ≠ "" ∧
            exampleFS.Stat strayPathFlags.confFilePath = none then 1 else 0) ∧
      jsonRuns (GetConf exampleFS libDecoders strayPathFlags {}).trace
        = (if strayPathFlags.confContent ≠ "" then 1 else 0)) ∧
    ((GetConf exampleFS libDecoders bothFlags {}).ret
        = some { Tenant := "t1", Port := 8080, Parallelism := 2 } ∧
      yamlRuns (GetConf exampleFS libDecoders bothFlags {}).trace = 1 ∧
      jsonRuns (GetConf exampleFS libDecoders bothFlags {}).trace = 1) :=
  ⟨⟨by decide,
      GetConf_success_decoder_runs exampleFS libDecoders strayPathFlags {}
        { Tenant := "t1", Parallelism := 2 } (by decide)⟩,
    ⟨by decide,
      (GetConf_success_decoder_runs exampleFS libDecoders bothFlags {}
        { Tenant := "t1", Port := 8080, Parallelism := 2 } (by decide)).1.trans (by decide),
      (GetConf_success_decoder_runs exampleFS libDecoders bothFlags {}
        { Tenant := "t1", Port := 8080, Parallelism := 2 } (by decide)).2.trans (by decide)⟩⟩

/-- C9 as stated fails: three failing calls on a zero record leave it changed.
The file step succeeds and the content step then fails, and the file's values
are in the record; the file decoder fails on a mistyped field after it has
stored the tenant; the content decoder fails on a mistyped field after it has
stored the tenant. -/
theorem GetConf_failure_keeps_writes :
    ((GetConf exampleFS libDecoders brokenContentFlags {}).ret = none ∧
      (GetConf exampleFS libDecoders brokenContentFlags {}).record
        = { Tenant := "t0", Port := 8080, Parallelism := 1 } ∧
      (GetConf exampleFS libDecoders brokenContentFlags {}).record ≠ {}) ∧
    ((GetConf exampleFS libDecoders mistypedFileFlags {}).ret = none ∧
      (GetConf exampleFS libDecoders mistypedFileFlags {}).record = { Tenant := "t0" } ∧
      (GetConf exampleFS libDecoders mistypedFileFlags {}).record ≠ {}) ∧
    ((GetConf exampleFS libDecoders mistypedContentFlags {}).ret = none ∧
      (GetConf exampleFS libDecoders mistypedContentFlags {}).record = { Tenant := "t1" } ∧
      (GetConf exampleFS libDecoders mistypedContentFlags {}).record ≠ {}) := by
  decide

/-- C9, amended: a failing call returns nil and is of one of the four kinds.
On MissingSource and on FileReadFailure the caller's record is as before the
call.  On FileDecodeFailure the record is as the file decoder left it.  On
ContentDecodeFailure the record is as the content decoder left it, run on the
caller's record when no file exists and on the record the file decoder produced
when the file step succeeded. -/
theorem GetConf_failure_record (fs : FileSystem) (dec : Decoders) (flags : Flags) (c : Conf)
    (h : (GetConf fs dec flags c).ret = none) :
    (flags.confContent = "" ∧
      (flags.confFilePath = "" ∨ fs.Stat flags.confFilePath ≠ none) ∧
      (GetConf fs dec flags c).record = c) ∨
    ((flags.confFilePath ≠ "" ∧ fs.Stat flags.confFilePath = none) ∧
      (∃ err, fs.ReadFile flags.confFilePath = Except.error err) ∧
      (GetConf fs dec flags c).record = c) ∨
    ((flags.confFilePath ≠ "" ∧ fs.Stat flags.confFilePath = none) ∧
      ∃ yamlFile err, fs.ReadFile flags.confFilePath = Except.ok yamlFile ∧
        (dec.yaml yamlFile c).2 = some err ∧
        (GetConf fs dec flags c).record = (dec.yaml yamlFile c).1) ∨
    (flags.confContent ≠ "" ∧
      ∃ cIn err,
        ((cIn = c ∧ (flags.confFilePath = "" ∨ fs.Stat flags.confFilePath ≠ none)) ∨
          ((flags.confFilePath ≠ "" ∧ fs.Stat flags.confFilePath = none) ∧
            ∃ yamlFile, fs.ReadFile flags.confFilePath = Except.ok yamlFile ∧
              dec.yaml yamlFile c = (cIn, none))) ∧
        (dec.json flags.confContent cIn).2 = some err ∧
        (GetConf fs dec flags c).record = (dec.json flags.confContent cIn).1) := by
  have hstep : ∀ (x : Conf) (t : List Event), (contentStep dec flags x t).ret = none →
      flags.confContent ≠ "" ∧ ∃ err, (dec.json flags.confContent x).2 = some err ∧
        (contentStep dec flags x t).record = (dec.json flags.confContent x).1 := by
    intro x t
    unfold contentStep
    by_cases hc : flags.confContent = ""
    · simp [hc]
    · rcases hj : dec.json flags.confContent x with ⟨c1, e1⟩
      cases e1 <;> simp [hc]
  by_cases hex : flags.confFilePath ≠ "" ∧ fs.Stat flags.confFilePath = none
  · have hf := fileExists_true fs flags.confFilePath hex.1 hex.2
    have hq : flags.confFilePath ≠ "" := hex.1
    unfold GetConf at h ⊢
    simp only [hf, hq, if_true, if_false, Bool.true_eq_false, or_false, and_false] at h ⊢
    cases hr : fs.ReadFile flags.confFilePath with
    | error err =>
      right; left
      exact ⟨hex, ⟨err, rfl⟩, rfl⟩
    | ok yamlFile =>
      rcases hy : dec.yaml yamlFile c with ⟨c1, e1⟩
      cases e1 with
      | some e =>
        right; right; left
        exact ⟨hex, yamlFile, e, rfl, by rw [hy], by simp only [hy]⟩
      | none =>
        simp only [hr, hy] at h ⊢
        obtain ⟨hc, err, he, hrec⟩ := hstep _ _ h
        right; right; right
        exact ⟨hc, c1, err, Or.inr ⟨hex, yamlFile, rfl, hy⟩, he, hrec⟩
  · have hp : flags.confFilePath = "" ∨ fs.Stat flags.confFilePath ≠ none := by
      by_cases hq : flags.confFilePath = ""
      · exact Or.inl hq
      · exact Or.inr (fun hn => hex ⟨hq, hn⟩)
    have hf := fileExists_false fs flags.confFilePath hp
    unfold GetConf at h ⊢
    simp only [hf, or_true, and_true, Bool.false_eq_true, if_false] at h ⊢
    by_cases hc : flags.confContent = ""
    · left
      simp [hc, hp]
    · simp only [hc, if_false] at h ⊢
      obtain ⟨_, err, he, hrec⟩ := hstep _ _ h
      right; right; right
      exact ⟨hc, c, err, Or.inl ⟨rfl, hp⟩, he, hrec⟩

/-- C9, amended, on the example machine: the call with the valid file and the
broken content fails, and the theorem places it among the four kinds. -/
theorem GetConf_failure_record_witness :
    (GetConf exampleFS libDecoders brokenContentFlags {}).ret = none ∧
    ((brokenContentFlags.confContent = "" ∧
      (brokenContentFlags.confFilePath = "" ∨
        exampleFS.Stat brokenContentFlags.confFilePath ≠ none) ∧
      (GetConf exampleFS libDecoders brokenContentFlags {}).record = {}) ∨
    ((brokenContentFlags.confFilePath ≠ "" ∧
        exampleFS.Stat brokenContentFlags.confFilePath = none) ∧
      (∃ err, exampleFS.ReadFile brokenContentFlags.confFilePath = Except.error err) ∧
      (GetConf exampleFS libDecoders brokenContentFlags {}).record = {}) ∨
    ((brokenContentFlags.confFilePath ≠ "" ∧
        exampleFS.Stat brokenContentFlags.confFilePath = none) ∧
      ∃ yamlFile err, exampleFS.ReadFile brokenContentFlags.confFilePath = Except.ok yamlFile ∧
        (libDecoders.yaml yamlFile {}).2 = some err ∧
        (GetConf exampleFS libDecoders brokenContentFlags {}).record
          = (libDecoders.yaml yamlFile {}).1) ∨
    (brokenContentFlags.confContent ≠ "" ∧
      ∃ cIn err,
        ((cIn = {} ∧ (brokenContentFlags.confFilePath = "" ∨
            exampleFS.Stat brokenContentFlags.confFilePath ≠ none)) ∨
          ((brokenContentFlags.confFilePath ≠ "" ∧
              exampleFS.Stat brokenContentFlags.confFilePath = none) ∧
            ∃ yamlFile, exampleFS.ReadFile brokenContentFlags.confFilePath = Except.ok yamlFile ∧
              libDecoders.yaml yamlFile {} = (cIn, none))) ∧
        (libDecoders.json brokenContentFlags.confContent cIn).2 = some err ∧
        (GetConf exampleFS libDecoders brokenContentFlags {}).record
          = (libDecoders.json brokenContentFlags.confContent cIn).1)) :=
  ⟨by decide, GetConf_failure_record exampleFS libDecoders brokenContentFlags {} (by decide)⟩

end conf
